import Mathlib

/-!
Verification of the casbin datastore adapter (`adapter.go`).

The Go source is shallowly embedded below: `CasbinRule`, its `String()`
method (`ruleString`), `savePolicyLine`, `loadPolicyLine`, the key scheme
(`pseudoRootKey`, and the keys built by `AddPolicy`, `RemovePolicy` and
`SavePolicy`), the query builder (`newQuery`), the filter mapping of
`RemoveFilteredPolicy`, its trailing error handling, and the `SavePolicy`
orchestration over an abstract datastore.

Conventions of the embedding:
* Go strings are `String`; `strings.TrimSpace` is embedded as `goTrim`
  (the Latin-1 fast path of Go's `unicode.IsSpace`; wider Unicode space
  runes are irrelevant to every statement below).
* Go's `int` is `Int` where sign matters (the filtered-delete index
  arithmetic), `Nat` elsewhere.
* Code that can panic or return an error is embedded with `Option` /
  `Except`.
-/

set_option maxRecDepth 4096

namespace CasbinDatastore

/-- Persisted record shape: `ptype, v0 .. v5`, mirroring the Go struct
`CasbinRule`. -/
structure CasbinRule where
  PType : String
  V0 : String
  V1 : String
  V2 : String
  V3 : String
  V4 : String
  V5 : String
deriving DecidableEq, Repr

/-- Whitespace test of Go's `unicode.IsSpace` restricted to the Latin-1
range (the fast path Go itself takes for these bytes). -/
def goIsSpace (c : Char) : Bool :=
  c == ' ' || c == '\t' || c == '\n' || c == '\u000B' || c == '\u000C' ||
    c == '\r' || c == '\u0085' || c == '\u00A0'

/-- Embedding of Go's `strings.TrimSpace`: drop leading and trailing
whitespace. -/
def goTrim (s : String) : String :=
  ⟨((s.data.dropWhile goIsSpace).reverse.dropWhile goIsSpace).reverse⟩

/-- The local closure `appendOrTerminate` inside `CasbinRule.String`:
trim the value; an empty trimmed value stops the build, otherwise the
value is appended comma-separated. -/
def appendOrTerminate (currentStr strToAdd : String) : String × Bool :=
  let tmp := goTrim strToAdd
  if tmp = "" then (currentStr, false)
  else if currentStr = "" then (tmp, true)
  else (currentStr ++ "," ++ tmp, true)

/-- Embedding of `CasbinRule.String()`: append the type tag, then slots
0..5 in order, stopping at the first value whose trimmed form is empty. -/
def ruleString (cr : CasbinRule) : String :=
  let step0 := appendOrTerminate "" cr.PType
  if !step0.2 then step0.1 else
  let step1 := appendOrTerminate step0.1 cr.V0
  if !step1.2 then step1.1 else
  let step2 := appendOrTerminate step1.1 cr.V1
  if !step2.2 then step2.1 else
  let step3 := appendOrTerminate step2.1 cr.V2
  if !step3.2 then step3.1 else
  let step4 := appendOrTerminate step3.1 cr.V3
  if !step4.2 then step4.1 else
  let step5 := appendOrTerminate step4.1 cr.V4
  if !step5.2 then step5.1 else
  (appendOrTerminate step5.1 cr.V5).1

/-- Embedding of `savePolicyLine`: copy fields 0..min(n,6)-1 into the
slots; absent slots stay `""`. -/
def savePolicyLine (ptype : String) (rule : List String) : CasbinRule where
  PType := ptype
  V0 := if rule.length > 0 then rule.getD 0 "" else ""
  V1 := if rule.length > 1 then rule.getD 1 "" else ""
  V2 := if rule.length > 2 then rule.getD 2 "" else ""
  V3 := if rule.length > 3 then rule.getD 3 "" else ""
  V4 := if rule.length > 4 then rule.getD 4 "" else ""
  V5 := if rule.length > 5 then rule.getD 5 "" else ""

/-- Slot projection by position (slot 0 is `v0`, ..., slot 5 is `v5`). -/
def slotVal (cr : CasbinRule) : Nat → String
  | 0 => cr.V0
  | 1 => cr.V1
  | 2 => cr.V2
  | 3 => cr.V3
  | 4 => cr.V4
  | 5 => cr.V5
  | _ => ""

/-- Token collection of `loadPolicyLine` (the `goto LineEnd` chain): read
raw slot values in order, stopping at the first raw-empty slot. -/
def decodeTokens (line : CasbinRule) : List String :=
  if line.V0 = "" then [] else line.V0 ::
  (if line.V1 = "" then [] else line.V1 ::
  (if line.V2 = "" then [] else line.V2 ::
  (if line.V3 = "" then [] else line.V3 ::
  (if line.V4 = "" then [] else line.V4 ::
  (if line.V5 = "" then [] else [line.V5])))))

/-- First byte of a Go string as a string, `key[:1]`; for the ASCII type
tags of this adapter the first byte is the first character. -/
def firstCharStr (s : String) : String :=
  ⟨s.data.take 1⟩

/-- Embedding of `loadPolicyLine`: Go computes `sec := key[:1]`, which
panics when the type tag is empty (`none` here); otherwise the decoded
triple is (section, rule-type, fields). -/
def loadPolicyLine (line : CasbinRule) : Option (String × String × List String) :=
  if line.PType = "" then none
  else some (firstCharStr line.PType, line.PType, decodeTokens line)

/-- Spec-side token builder (refinement target for the identity string):
trim each value in order and stop at the first trim-empty value,
collecting the trimmed values. -/
def specTokens : List String → List String
  | [] => []
  | s :: rest => if goTrim s = "" then [] else goTrim s :: specTokens rest

/-- Spec-side comma join: tokens joined with `","`. -/
def joinComma : List String → String
  | [] => ""
  | t :: rest => rest.foldl (fun acc x => acc ++ "," ++ x) t

/-- Spec-side description of the slot values that contribute to a
record's identity string: nothing when the type tag trims to empty,
otherwise the trimmed slot prefix up to the first trim-empty slot. -/
def identityContribFields (cr : CasbinRule) : List String :=
  if goTrim cr.PType = "" then []
  else specTokens [cr.V0, cr.V1, cr.V2, cr.V3, cr.V4, cr.V5]

/-- Adapter configuration, mirroring the Go `Config` struct (durations in
nanoseconds). -/
structure Config where
  Kind : String
  Namespace : String
  Debug : Bool
  LoadSaveFilterDeadline : Nat
  AddRemoveDeadline : Nat
deriving DecidableEq, Repr

/-- Default datastore kind name, the Go constant `casbinKind`. -/
def casbinKind : String := "casbin"

/-- Defaulting performed by `NewAdapterWithConfig`. -/
def newAdapterWithConfig (config : Config) : Config :=
  let c := if goTrim config.Kind = "" then { config with Kind := casbinKind } else config
  let c := if c.LoadSaveFilterDeadline = 0 then { c with LoadSaveFilterDeadline := 600000000000 } else c
  if c.AddRemoveDeadline = 0 then { c with AddRemoveDeadline := 30000000000 } else c

/-- One link of a datastore key chain: kind, numeric id or name, and the
namespace field of that link. -/
structure KeyCell where
  kind : String
  id : Int
  name : String
  Namespace : String
deriving DecidableEq, Repr

/-- Datastore key, mirroring `datastore.Key` of the Go client: a kind, a
numeric id or a name, a namespace, and the ancestor chain (Go's `Parent`
linked list, nearest ancestor first). -/
structure Key where
  kind : String
  id : Int
  name : String
  parentPath : List KeyCell
  Namespace : String
deriving DecidableEq, Repr

/-- Head cell of a key (the key without its ancestors). -/
def Key.toCell (k : Key) : KeyCell :=
  ⟨k.kind, k.id, k.name, k.Namespace⟩

/-- Parent of a key, as a key. -/
def Key.parent (k : Key) : Option Key :=
  match k.parentPath with
  | [] => none
  | c :: rest => some ⟨c.kind, c.id, c.name, rest, c.Namespace⟩

/-- Path of an optional parent key. -/
def parentPathOf : Option Key → List KeyCell
  | none => []
  | some p => p.toCell :: p.parentPath

/-- Go's `key.Namespace = ns` field assignment. -/
def Key.setNamespace (k : Key) (ns : String) : Key :=
  { k with Namespace := ns }

/-- `datastore.IDKey`: a fresh id key with empty namespace. -/
def idKey (kind : String) (id : Int) (parent : Option Key) : Key :=
  ⟨kind, id, "", parentPathOf parent, ""⟩

/-- `datastore.NameKey`: a fresh name key with empty namespace. -/
def nameKey (kind name : String) (parent : Option Key) : Key :=
  ⟨kind, 0, name, parentPathOf parent, ""⟩

/-- `adapter.pseudoRootKey`: the synthetic per-partition ancestor,
`IDKey(kind, 1, nil)` with the configured namespace. -/
def pseudoRootKey (cfg : Config) : Key :=
  (idKey cfg.Kind 1 none).setNamespace cfg.Namespace

/-- Key built by `AddPolicy`: a name key named by the record's identity
string, parented by the pseudo root, namespace set explicitly. -/
def addPolicyKey (cfg : Config) (ptype : String) (rule : List String) : Key :=
  (nameKey cfg.Kind (ruleString (savePolicyLine ptype rule)) (some (pseudoRootKey cfg))).setNamespace cfg.Namespace

/-- Key built by `RemovePolicy`: same name key and parent, but the Go code
never assigns `key.Namespace`, so the field keeps its zero value. -/
def removePolicyKey (cfg : Config) (ptype : String) (rule : List String) : Key :=
  nameKey cfg.Kind (ruleString (savePolicyLine ptype rule)) (some (pseudoRootKey cfg))

/-- Key built by `SavePolicy` for each line inside the transaction:
identity-named, parented by the pseudo root, namespace set explicitly. -/
def savePolicyKeyFor (cfg : Config) (line : CasbinRule) : Key :=
  (nameKey cfg.Kind (ruleString line) (some (pseudoRootKey cfg))).setNamespace cfg.Namespace

/-- Datastore query description: kind, namespace, ancestor, the filters
added so far (filter string, operand), and the keys-only flag. -/
structure Query where
  kind : String
  Namespace : String
  ancestor : Option Key
  filters : List (String × String)
  keysOnly : Bool
deriving DecidableEq, Repr

/-- `adapter.newQuery`: all records of the configured kind and namespace
under the pseudo root, filtered by `ptype > ""`. -/
def newQuery (cfg : Config) : Query :=
  ⟨cfg.Kind, cfg.Namespace, some (pseudoRootKey cfg), [("ptype >", "")], false⟩

/-- Errors surfaced by the abstract datastore. `noSuchEntity` is
`datastore.ErrNoSuchEntity`. -/
inductive DSErr where
  | noSuchEntity
  | other (msg : String)
deriving DecidableEq, Repr

/-- One filter slot of `RemoveFilteredPolicy` (the six identical blocks,
at slot position `p`): guarded by `fieldIndex <= p && p < fieldIndex +
len(fieldValues)`; inside the guard Go indexes `fieldValues[p-fieldIndex]`
(an `error` here marks the out-of-range panic) and only a non-empty value
becomes a filter. -/
def slotFilterE (fieldIndex : Int) (fieldValues : List String) (p : Nat) : Except String (Option String) :=
  if fieldIndex ≤ (p : Int) ∧ (p : Int) < fieldIndex + (fieldValues.length : Int) then
    match fieldValues[((p : Int) - fieldIndex).toNat]? with
    | some v => if v ≠ "" then .ok (some v) else .ok none
    | none => .error "index out of range"
  else .ok none

/-- Panic-free reading of `slotFilterE` (proved total in the safety
claim). -/
def slotFilter (fieldIndex : Int) (fieldValues : List String) (p : Nat) : Option String :=
  match slotFilterE fieldIndex fieldValues p with
  | .ok o => o
  | .error _ => none

/-- Entry contributed to the selector by slot position `p` under filter
name `name`. -/
def slotEntry (name : String) (fieldIndex : Int) (fieldValues : List String) (p : Nat) : List (String × String) :=
  match slotFilter fieldIndex fieldValues p with
  | some v => [(name, v)]
  | none => []

/-- The selector map built by `RemoveFilteredPolicy`: always `ptype`,
plus the six guarded slot filters. -/
def buildFilters (ptype : String) (fieldIndex : Int) (fieldValues : List String) : List (String × String) :=
  ("ptype", ptype) ::
    (slotEntry "v0" fieldIndex fieldValues 0 ++ slotEntry "v1" fieldIndex fieldValues 1 ++
     slotEntry "v2" fieldIndex fieldValues 2 ++ slotEntry "v3" fieldIndex fieldValues 3 ++
     slotEntry "v4" fieldIndex fieldValues 4 ++ slotEntry "v5" fieldIndex fieldValues 5)

/-- Abstract datastore contents: records stored by key. -/
abbrev Store := List (Key × CasbinRule)

/-- One mutation submitted inside a transaction. -/
inductive Mutation where
  | del (k : Key)
  | put (k : Key) (r : CasbinRule)
deriving DecidableEq, Repr

/-- Effect of one mutation: delete removes the key's record, put
upserts. -/
def applyMutation (st : Store) (m : Mutation) : Store :=
  match m with
  | .del k => st.filter (fun kr => !decide (kr.1 = k))
  | .put k r => st.filter (fun kr => !decide (kr.1 = k)) ++ [(k, r)]

/-- Effect of a mutation list, in order. -/
def applyMutations (st : Store) (ms : List Mutation) : Store :=
  ms.foldl applyMutation st

/-- Record stored under a key, if any. -/
def storeGet (st : Store) (k : Key) : Option CasbinRule :=
  match st.find? (fun kr => decide (kr.1 = k)) with
  | some kr => some kr.2
  | none => none

/-- Tail of `RemoveFilteredPolicy` after building the query: the fetch
error is switched on, `ErrNoSuchEntity` is normalized to success, any
other error is surfaced, and on success the fetched keys are deleted in
one batched call. -/
def removeFilteredFinish (st : Store) (fetch : Except DSErr (List Key))
    (deleteMulti : Store → List Key → Store × Option DSErr) : Store × Option DSErr :=
  match fetch with
  | .error DSErr.noSuchEntity => (st, none)
  | .error e => (st, some e)
  | .ok keys => deleteMulti st keys

/-- Policies of one model section: rule-type with its ordered rule
list (Go map iteration order abstracted as a list). -/
abbrev CasbinPolicies := List (String × List (List String))

/-- Record list `SavePolicy` builds from the model's `p` then `g`
section. -/
def buildSaveLines (p g : CasbinPolicies) : List CasbinRule :=
  ((p.map (fun pt => pt.2.map (savePolicyLine pt.1))).flatten) ++
    ((g.map (fun pt => pt.2.map (savePolicyLine pt.1))).flatten)

/-- The put loop inside `SavePolicy`'s transaction body: each line is put
under its content-derived key; a put error aborts the body. -/
def putAllLines (cfg : Config) (txPut : Key → CasbinRule → Except DSErr Unit) :
    List CasbinRule → Except DSErr (List Mutation)
  | [] => .ok []
  | line :: rest =>
    match txPut (savePolicyKeyFor cfg line) line with
    | .error e => .error e
    | .ok _ =>
      match putAllLines cfg txPut rest with
      | .error e => .error e
      | .ok ms => .ok (Mutation.put (savePolicyKeyFor cfg line) line :: ms)

/-- Transaction body of `SavePolicy`: `DeleteMulti` on the snapshotted
keys, then the put loop; the submitted mutations are the deletes followed
by the puts. -/
def savePolicyTxBody (cfg : Config) (txDelete : List Key → Except DSErr Unit)
    (txPut : Key → CasbinRule → Except DSErr Unit) (keys : List Key)
    (lines : List CasbinRule) : Except DSErr (List Mutation) :=
  match txDelete keys with
  | .error e => .error e
  | .ok _ =>
    match putAllLines cfg txPut lines with
    | .error e => .error e
    | .ok ms => .ok (keys.map Mutation.del ++ ms)

/-- The store's atomic transaction primitive (contract of
`RunInTransaction`): a failing body leaves the store untouched and
surfaces the error; a successful body applies every mutation. -/
def runInTransaction (st : Store) (body : Except DSErr (List Mutation)) : Store × Option DSErr :=
  match body with
  | .error e => (st, some e)
  | .ok ms => (applyMutations st ms, none)

/-- `SavePolicy` orchestration: a failed keys-only fetch returns the
error with no mutation; otherwise the delete-all/put-all body runs inside
one transaction. -/
def savePolicy (cfg : Config) (st : Store) (fetchKeys : Except DSErr (List Key))
    (p g : CasbinPolicies) (txDelete : List Key → Except DSErr Unit)
    (txPut : Key → CasbinRule → Except DSErr Unit) : Store × Option DSErr :=
  match fetchKeys with
  | .error e => (st, some e)
  | .ok keys => runInTransaction st (savePolicyTxBody cfg txDelete txPut keys (buildSaveLines p g))

/-- The unrolled append chain of `CasbinRule.String` as a recursion over
the remaining values. -/
def chainRun (cur : String) : List String → String
  | [] => cur
  | v :: rest =>
    let st := appendOrTerminate cur v
    if !st.2 then st.1 else chainRun st.1 rest

/-- Lexicographic strict order on character lists, the order in which the
datastore compares the string operands of an inequality filter. -/
def charListLt : List Char → List Char → Bool
  | [], [] => false
  | [], _ :: _ => true
  | _ :: _, [] => false
  | a :: as, b :: bs => if a < b then true else if b < a then false else charListLt as bs

/-- Semantics of the `ptype > ""` query filter: the record's type tag
compares strictly greater than the empty string. -/
def ptypeGtEmpty (r : CasbinRule) : Bool := charListLt [] r.PType.data

/-- Filter name of slot position `p` (`v0` .. `v5` in the Go selector). -/
def slotName : Nat → String
  | 0 => "v0"
  | 1 => "v1"
  | 2 => "v2"
  | 3 => "v3"
  | 4 => "v4"
  | 5 => "v5"
  | _ => ""

/-- Concrete configuration with a non-default namespace, as the
repository's own tests use (`Config{Namespace: "unittest"}`). -/
def cfgUnittest : Config := ⟨"casbin", "unittest", false, 0, 0⟩

/-! Helper lemmas. -/

theorem string_append_ne_empty (a b : String) (h : a ≠ "") : a ++ b ≠ "" := by
  intro hab
  apply h
  have hd : a.data ++ b.data = [] := congrArg String.data hab
  have ha : a.data = [] := (List.append_eq_nil.mp hd).1
  cases a
  simp_all

theorem aot_of_trim_empty (cur s : String) (h : goTrim s = "") :
    appendOrTerminate cur s = (cur, false) := by
  simp [appendOrTerminate, h]

theorem aot_of_trim_ne (cur s : String) (h : goTrim s ≠ "") :
    appendOrTerminate cur s =
      (if cur = "" then goTrim s else cur ++ "," ++ goTrim s, true) := by
  simp only [appendOrTerminate, if_neg h]
  split <;> rfl

theorem ruleString_eq_chainRun (cr : CasbinRule) :
    ruleString cr = chainRun "" [cr.PType, cr.V0, cr.V1, cr.V2, cr.V3, cr.V4, cr.V5] := by
  simp only [ruleString, chainRun, ite_self]

theorem chainRun_spec (l : List String) (cur : String) (h : cur ≠ "") :
    chainRun cur l = joinComma (cur :: specTokens l) := by
  induction l generalizing cur with
  | nil => simp [chainRun, joinComma, specTokens]
  | cons v rest ih =>
    by_cases hv : goTrim v = ""
    · simp [chainRun, aot_of_trim_empty cur v hv, specTokens, hv, joinComma]
    · have hcur' : cur ++ "," ++ goTrim v ≠ "" :=
        string_append_ne_empty _ _ (string_append_ne_empty _ _ h)
      simp only [chainRun, aot_of_trim_ne cur v hv, if_neg h, Bool.not_true,
        Bool.false_eq_true, if_false, ih _ hcur', specTokens, hv, joinComma,
        List.foldl_cons]

/-- Refinement of `CasbinRule.String()` against the spec description:
trim the type tag and the slots in order, stop at the first trim-empty
value, join the collected tokens with commas. -/
theorem ruleString_spec (cr : CasbinRule) :
    ruleString cr = joinComma (specTokens [cr.PType, cr.V0, cr.V1, cr.V2, cr.V3, cr.V4, cr.V5]) := by
  rw [ruleString_eq_chainRun]
  by_cases hp : goTrim cr.PType = ""
  · simp [chainRun, aot_of_trim_empty _ _ hp, specTokens, hp, joinComma]
  · have h1 : chainRun "" [cr.PType, cr.V0, cr.V1, cr.V2, cr.V3, cr.V4, cr.V5] =
        chainRun (goTrim cr.PType) [cr.V0, cr.V1, cr.V2, cr.V3, cr.V4, cr.V5] := by
      simp [chainRun, aot_of_trim_ne _ _ hp]
    rw [h1, chainRun_spec _ _ hp]
    simp [specTokens, hp]

theorem specTokens_congr {l1 l2 : List String}
    (h : l1.map goTrim = l2.map goTrim) : specTokens l1 = specTokens l2 := by
  induction l1 generalizing l2 with
  | nil => cases l2 <;> simp_all [specTokens]
  | cons a t ih =>
    cases l2 with
    | nil => simp_all
    | cons b t2 =>
      simp only [List.map_cons, List.cons.injEq] at h
      simp [specTokens, h.1, ih h.2]

theorem goTrim_empty : goTrim "" = "" := rfl

theorem getD_map_trim (l : List String) (i : Nat) :
    (l.map goTrim).getD i "" = goTrim (l.getD i "") := by
  induction l generalizing i with
  | nil => simp [List.getD, goTrim_empty]
  | cons a t ih =>
    cases i with
    | zero => simp [List.getD]
    | succ n => simpa [List.getD] using ih n

theorem storeGet_put (st : Store) (k : Key) (r : CasbinRule) :
    storeGet (applyMutation st (.put k r)) k = some r := by
  simp only [applyMutation]
  induction st with
  | nil => simp [storeGet, List.find?]
  | cons kr t ih =>
    by_cases h : kr.1 = k
    · simpa [List.filter_cons, h] using ih
    · simpa [storeGet, List.filter_cons, h, List.find?] using ih

theorem slotFilterE_ok (fi : Int) (vs : List String) (p : Nat) :
    slotFilterE fi vs p = .ok (slotFilter fi vs p) := by
  obtain ⟨o, ho⟩ : ∃ o, slotFilterE fi vs p = Except.ok o := by
    unfold slotFilterE
    by_cases hg : fi ≤ (p : Int) ∧ (p : Int) < fi + (vs.length : Int)
    · have hlt : ((p : Int) - fi).toNat < vs.length := by omega
      rw [if_pos hg, List.getElem?_eq_getElem hlt]
      split
      all_goals first
        | (split <;> exact ⟨_, rfl⟩)
        | (rename_i heq; exact Option.noConfusion heq)
    · rw [if_neg hg]
      exact ⟨none, rfl⟩
  rw [ho]
  unfold slotFilter
  rw [ho]

theorem slotFilter_eq_some_iff (fi : Int) (vs : List String) (p : Nat) (v : String) :
    slotFilter fi vs p = some v ↔
      (fi ≤ (p : Int) ∧ (p : Int) < fi + (vs.length : Int) ∧
        v = vs.getD ((p : Int) - fi).toNat "" ∧ v ≠ "") := by
  unfold slotFilter slotFilterE
  by_cases hg : fi ≤ (p : Int) ∧ (p : Int) < fi + (vs.length : Int)
  · obtain ⟨h1, h2⟩ := hg
    have hlt : ((p : Int) - fi).toNat < vs.length := by omega
    rw [if_pos ⟨h1, h2⟩, List.getElem?_eq_getElem hlt]
    have hgd : vs.getD ((p : Int) - fi).toNat "" = vs[((p : Int) - fi).toNat] :=
      List.getD_eq_getElem vs "" hlt
    by_cases hv : vs[((p : Int) - fi).toNat] = ""
    · simp [hv, hgd, h1, h2, List.getElem?_eq_getElem hlt]
    · simp only [ne_eq, hv, not_false_eq_true, if_true, hgd, h1, h2, true_and]
      constructor
      · intro hsome
        have := Option.some.inj hsome
        exact ⟨this.symm, by rw [← this]; exact hv⟩
      · intro ⟨hveq, _⟩
        rw [hveq]
  · rw [if_neg hg]
    constructor
    · intro hcontra
      cases hcontra
    · intro ⟨a, b, _, _⟩
      exact absurd ⟨a, b⟩ hg

theorem mem_slotEntry (n name v : String) (fi : Int) (vs : List String) (p : Nat) :
    (n, v) ∈ slotEntry name fi vs p ↔ (n = name ∧ slotFilter fi vs p = some v) := by
  unfold slotEntry
  cases h : slotFilter fi vs p <;> simp [h, eq_comm]

theorem string_eq_empty_of_data (s : String) (h : s.data = []) : s = "" := by
  cases s with
  | mk l =>
    have hl : l = [] := h
    subst hl
    rfl

theorem ptypeGtEmpty_iff (r : CasbinRule) : ptypeGtEmpty r = true ↔ r.PType ≠ "" := by
  unfold ptypeGtEmpty
  constructor
  · intro hgt he
    rw [he] at hgt
    simp [charListLt] at hgt
  · intro hne
    cases hd : r.PType.data with
    | nil => exact absurd (string_eq_empty_of_data _ hd) hne
    | cons c cs => simp [hd, charListLt]

/-! Claim theorems. -/

/-- Claim C1: the record keys of SavePolicy, AddPolicy and RemovePolicy
are named by the record's identity string, parented by the partition's
ancestor key, and scoped to the configured namespace. Evaluating the code
at `Config{Namespace: "unittest"}` shows the claim holds for AddPolicy and
SavePolicy but fails for RemovePolicy: the Go code never assigns
`key.Namespace` there, so the delete key's namespace stays `""` and the
key differs from the one AddPolicy wrote. -/
theorem claim_C1_remove_policy_key_namespace :
    (addPolicyKey cfgUnittest "p" ["alice", "data1", "read"]).Namespace = "unittest" ∧
    (savePolicyKeyFor cfgUnittest (savePolicyLine "p" ["alice", "data1", "read"])).Namespace = "unittest" ∧
    (removePolicyKey cfgUnittest "p" ["alice", "data1", "read"]).Namespace = "" ∧
    removePolicyKey cfgUnittest "p" ["alice", "data1", "read"] ≠
      addPolicyKey cfgUnittest "p" ["alice", "data1", "read"] ∧
    (removePolicyKey cfgUnittest "p" ["alice", "data1", "read"]).name =
      ruleString (savePolicyLine "p" ["alice", "data1", "read"]) ∧
    (removePolicyKey cfgUnittest "p" ["alice", "data1", "read"]).parent =
      some (pseudoRootKey cfgUnittest) ∧
    (addPolicyKey cfgUnittest "p" ["alice", "data1", "read"]).name =
      ruleString (savePolicyLine "p" ["alice", "data1", "read"]) ∧
    (addPolicyKey cfgUnittest "p" ["alice", "data1", "read"]).parent =
      some (pseudoRootKey cfgUnittest) := by
  decide

/-- Claim C2 counterexample: for the stored record `savePolicyLine "p"
[" "]` the decoded field list is `[" "]` while the identity string `"p"`
was built from no slot value at all, so decode and identity do not follow
the same truncation rule. -/
theorem claim_C2_counterexample :
    decodeTokens (savePolicyLine "p" [" "]) ≠
      identityContribFields (savePolicyLine "p" [" "]) ∧
    decodeTokens (savePolicyLine "p" [" "]) = [" "] ∧
    identityContribFields (savePolicyLine "p" [" "]) = [] ∧
    ruleString (savePolicyLine "p" [" "]) = "p" := by
  decide

/-- Claim C2 (amended): for every record whose type tag does not trim to
empty and whose slot values are unchanged by whitespace trimming, the
decoded field list equals the sequence of slot values that contributed to
the identity string, and the identity string is the comma join of the
trimmed type tag and that sequence. -/
theorem claim_C2_amended :
    ∀ cr : CasbinRule, goTrim cr.PType ≠ "" →
      goTrim cr.V0 = cr.V0 → goTrim cr.V1 = cr.V1 → goTrim cr.V2 = cr.V2 →
      goTrim cr.V3 = cr.V3 → goTrim cr.V4 = cr.V4 → goTrim cr.V5 = cr.V5 →
      decodeTokens cr = identityContribFields cr ∧
      ruleString cr = joinComma (goTrim cr.PType :: identityContribFields cr) := by
  intro cr hp h0 h1 h2 h3 h4 h5
  constructor
  · simp only [identityContribFields, if_neg hp, specTokens, decodeTokens,
      h0, h1, h2, h3, h4, h5]
  · rw [ruleString_spec]
    simp [specTokens, hp, identityContribFields]

/-- Witness for the amended claim C2 at a concrete stored record. -/
theorem claim_C2_witness :
    decodeTokens (savePolicyLine "p" ["alice", "data1", "read"]) =
      identityContribFields (savePolicyLine "p" ["alice", "data1", "read"]) ∧
    ruleString (savePolicyLine "p" ["alice", "data1", "read"]) =
      joinComma (goTrim (savePolicyLine "p" ["alice", "data1", "read"]).PType ::
        identityContribFields (savePolicyLine "p" ["alice", "data1", "read"])) :=
  claim_C2_amended (savePolicyLine "p" ["alice", "data1", "read"])
    (by decide) (by decide) (by decide) (by decide) (by decide) (by decide) (by decide)

/-- Claim C3: SavePolicy runs delete-all and put-all inside one atomic
transaction; a failure of any step inside the transaction leaves the
store exactly as before the call and surfaces the error, and a failure of
the initial keys-only fetch returns that error before any mutation. -/
theorem claim_C3_save_policy_atomic :
    ∀ (cfg : Config) (st : Store) (fetchKeys : Except DSErr (List Key))
      (p g : CasbinPolicies) (txDelete : List Key → Except DSErr Unit)
      (txPut : Key → CasbinRule → Except DSErr Unit),
      (∀ e, fetchKeys = .error e →
        savePolicy cfg st fetchKeys p g txDelete txPut = (st, some e)) ∧
      (∀ keys e, fetchKeys = .ok keys →
        savePolicyTxBody cfg txDelete txPut keys (buildSaveLines p g) = .error e →
        savePolicy cfg st fetchKeys p g txDelete txPut = (st, some e)) := by
  intro cfg st fetchKeys p g txD txP
  constructor
  · intro e he
    rw [he]
    rfl
  · intro keys e hk hb
    rw [hk]
    simp [savePolicy, runInTransaction, hb]

/-- Witness for claim C3: a transaction body whose delete step fails
leaves a non-empty store untouched and surfaces the error. -/
theorem claim_C3_witness :
    savePolicy ⟨"casbin", "", false, 0, 0⟩
      [(⟨"casbin", 0, "x", [], ""⟩, savePolicyLine "p" ["a"])]
      (.ok [⟨"casbin", 0, "x", [], ""⟩]) [] []
      (fun _ => .error (.other "boom")) (fun _ _ => .ok ()) =
      ([(⟨"casbin", 0, "x", [], ""⟩, savePolicyLine "p" ["a"])], some (.other "boom")) :=
  (claim_C3_save_policy_atomic ⟨"casbin", "", false, 0, 0⟩
      [(⟨"casbin", 0, "x", [], ""⟩, savePolicyLine "p" ["a"])]
      (.ok [⟨"casbin", 0, "x", [], ""⟩]) [] []
      (fun _ => .error (.other "boom")) (fun _ _ => .ok ())).2
    [⟨"casbin", 0, "x", [], ""⟩] (.other "boom") rfl rfl

/-- Claim C4: the identity string appends the type tag and then slots 0
through 5 in order, trimming each appended value, joining with commas and
stopping at the first trim-empty value so later slots are excluded; in
particular encoding fields `["a","","c"]` yields identity `"p,a"`. -/
theorem claim_C4_identity_build :
    (∀ cr : CasbinRule,
      ruleString cr =
        joinComma (specTokens [cr.PType, cr.V0, cr.V1, cr.V2, cr.V3, cr.V4, cr.V5])) ∧
    ruleString (savePolicyLine "p" ["a", "", "c"]) = "p,a" :=
  ⟨ruleString_spec, by decide⟩

/-- Claim C5 counterexample: decode of encode fails (the Go code panics
on `key[:1]`) when the rule type is the empty string, so the round trip
does not return the encoded pair there. -/
theorem claim_C5_counterexample :
    loadPolicyLine (savePolicyLine "" ["a"]) = none ∧
    (savePolicyLine "" ["a"]).PType = "" := by
  decide

/-- Claim C5 (amended): for every non-empty rule type and every list of
at most 6 non-empty fields, decoding the record produced by encoding
yields the section, the same rule type and the same field list. -/
theorem claim_C5_amended :
    ∀ (ptype : String) (fields : List String), ptype ≠ "" → fields.length ≤ 6 →
      (∀ f ∈ fields, f ≠ "") →
      loadPolicyLine (savePolicyLine ptype fields) =
        some (firstCharStr ptype, ptype, fields) := by
  intro ptype fields hp hlen hne
  rcases fields with _ | ⟨a, _ | ⟨b, _ | ⟨c, _ | ⟨d, _ | ⟨e, _ | ⟨f, _ | ⟨g, rest⟩⟩⟩⟩⟩⟩⟩
  · simp_all [loadPolicyLine, savePolicyLine, decodeTokens, List.getD]
  · simp_all [loadPolicyLine, savePolicyLine, decodeTokens, List.getD]
  · simp_all [loadPolicyLine, savePolicyLine, decodeTokens, List.getD]
  · simp_all [loadPolicyLine, savePolicyLine, decodeTokens, List.getD]
  · simp_all [loadPolicyLine, savePolicyLine, decodeTokens, List.getD]
  · simp_all [loadPolicyLine, savePolicyLine, decodeTokens, List.getD]
  · simp_all [loadPolicyLine, savePolicyLine, decodeTokens, List.getD]
  · simp at hlen

/-- Witness for the amended claim C5 at a concrete rule. -/
theorem claim_C5_witness :
    loadPolicyLine (savePolicyLine "p" ["alice", "data1", "read"]) =
      some (firstCharStr "p", "p", ["alice", "data1", "read"]) :=
  claim_C5_amended "p" ["alice", "data1", "read"] (by decide) (by decide) (by decide)

theorem mem_buildFilters_names (ptype : String) (fi : Int) (vs : List String)
    (n v : String) (h : (n, v) ∈ buildFilters ptype fi vs) :
    n = "ptype" ∨ n = "v0" ∨ n = "v1" ∨ n = "v2" ∨ n = "v3" ∨ n = "v4" ∨ n = "v5" := by
  simp only [buildFilters, List.mem_cons, List.mem_append, mem_slotEntry,
    Prod.mk.injEq] at h
  tauto

/-- Claim C6: the filter mapping of RemoveFilteredPolicy always contains
the `ptype` entry; slot position `p` contributes the entry
`slot[p] = values[p - fieldIndex]` exactly when
`fieldIndex <= p < fieldIndex + len(values)` and that value is non-empty;
and the two concrete patterns of the spec produce exactly the stated
filters. -/
theorem claim_C6_build_filters :
    ∀ (ptype : String) (fi : Int) (vs : List String),
      ("ptype", ptype) ∈ buildFilters ptype fi vs ∧
      (∀ p : Fin 6, ∀ v : String,
        ((slotName p.val, v) ∈ buildFilters ptype fi vs ↔
          (fi ≤ (p.val : Int) ∧ (p.val : Int) < fi + (vs.length : Int) ∧
            v = vs.getD ((p.val : Int) - fi).toNat "" ∧ v ≠ ""))) ∧
      buildFilters "p" 1 ["data2_admin"] = [("ptype", "p"), ("v1", "data2_admin")] ∧
      buildFilters "p" 0 ["domain1", "", "", "read"] =
        [("ptype", "p"), ("v0", "domain1"), ("v3", "read")] := by
  intro ptype fi vs
  refine ⟨?_, ?_, by decide, by decide⟩
  · simp [buildFilters]
  · intro p v
    fin_cases p <;>
      simp [slotName, buildFilters, mem_slotEntry, slotFilter_eq_some_iff]

/-- Witness for claim C6: the first spec example's `v1` entry, through
the general characterization. -/
theorem claim_C6_witness :
    (slotName 1, "data2_admin") ∈ buildFilters "p" 1 ["data2_admin"] :=
  ((claim_C6_build_filters "p" 1 ["data2_admin"]).2.1 ⟨1, by omega⟩ "data2_admin").mpr
    (by decide)

/-- Claim C7: for every fieldIndex (negative included) and every value
list (overlong included), each of the six slot blocks stays inside the
guard and never reads out of range (the `Except` embedding never reaches
its error branch), and the built selector only ever names `ptype` and
`v0`..`v5`. -/
theorem claim_C7_no_out_of_range :
    ∀ (ptype : String) (fi : Int) (vs : List String) (p : Nat),
      slotFilterE fi vs p = Except.ok (slotFilter fi vs p) ∧
      (buildFilters ptype fi vs).all
        (fun e => (["ptype", "v0", "v1", "v2", "v3", "v4", "v5"] : List String).contains e.1) = true := by
  intro ptype fi vs p
  refine ⟨slotFilterE_ok fi vs p, ?_⟩
  rw [List.all_eq_true]
  intro e he
  obtain ⟨n, v⟩ := e
  have hn := mem_buildFilters_names ptype fi vs n v he
  rcases hn with rfl | rfl | rfl | rfl | rfl | rfl | rfl <;> rfl

/-- Claim C8: an `ErrNoSuchEntity` raised by the intermediate fetch is
normalized to success with the store untouched; an empty key match
likewise succeeds with zero deletions (given that the store's batched
delete of no keys succeeds); any other fetch error is surfaced. -/
theorem claim_C8_not_found_normalized :
    ∀ (st : Store) (deleteMulti : Store → List Key → Store × Option DSErr),
      removeFilteredFinish st (.error DSErr.noSuchEntity) deleteMulti = (st, none) ∧
      (deleteMulti st [] = (st, none) →
        removeFilteredFinish st (.ok []) deleteMulti = (st, none)) ∧
      (∀ e, e ≠ DSErr.noSuchEntity →
        removeFilteredFinish st (.error e) deleteMulti = (st, some e)) := by
  intro st d
  refine ⟨rfl, ?_, ?_⟩
  · intro h
    exact h
  · intro e he
    cases e with
    | noSuchEntity => exact absurd rfl he
    | other m => rfl

/-- Witness for claim C8 with an empty store and a delete that succeeds
on the empty batch. -/
theorem claim_C8_witness :
    removeFilteredFinish [] (.error DSErr.noSuchEntity) (fun s _ => (s, none)) = ([], none) ∧
    removeFilteredFinish [] (.ok []) (fun s _ => (s, none)) = ([], none) :=
  ⟨(claim_C8_not_found_normalized [] (fun s _ => (s, none))).1,
   (claim_C8_not_found_normalized [] (fun s _ => (s, none))).2.1 rfl⟩

theorem savePolicyLine_trim_list {l1 l2 : List String}
    (h : l1.map goTrim = l2.map goTrim) (i : Nat) :
    goTrim (if l1.length > i then l1.getD i "" else "") =
      goTrim (if l2.length > i then l2.getD i "" else "") := by
  have hlen : l1.length = l2.length := by
    have := congrArg List.length h
    simpa using this
  have hslot : goTrim (l1.getD i "") = goTrim (l2.getD i "") := by
    rw [← getD_map_trim, ← getD_map_trim, h]
  rw [hlen]
  by_cases hi : l2.length > i
  · rw [if_pos hi, if_pos hi]
    exact hslot
  · rw [if_neg hi, if_neg hi]

/-- Claim C9: two field lists that agree after per-field whitespace
trimming produce records with the same identity string, hence the same
AddPolicy key, so the later put overwrites the earlier record; yet the
stored slot values themselves are the raw, untrimmed fields. -/
theorem claim_C9_trim_invariant_identity :
    ∀ (cfg : Config) (ptype : String) (l1 l2 : List String),
      l1.map goTrim = l2.map goTrim →
      ruleString (savePolicyLine ptype l1) = ruleString (savePolicyLine ptype l2) ∧
      addPolicyKey cfg ptype l1 = addPolicyKey cfg ptype l2 ∧
      (∀ (st : Store) (r1 r2 : CasbinRule),
        storeGet (applyMutation (applyMutation st (.put (addPolicyKey cfg ptype l1) r1))
          (.put (addPolicyKey cfg ptype l2) r2)) (addPolicyKey cfg ptype l1) = some r2) ∧
      (∀ i, i < 6 → slotVal (savePolicyLine ptype l1) i =
        (if i < l1.length then l1.getD i "" else "")) := by
  intro cfg ptype l1 l2 h
  have hrs : ruleString (savePolicyLine ptype l1) = ruleString (savePolicyLine ptype l2) := by
    rw [ruleString_spec, ruleString_spec]
    congr 1
    apply specTokens_congr
    simp only [List.map_cons, List.map_nil, savePolicyLine,
      savePolicyLine_trim_list h 0, savePolicyLine_trim_list h 1,
      savePolicyLine_trim_list h 2, savePolicyLine_trim_list h 3,
      savePolicyLine_trim_list h 4, savePolicyLine_trim_list h 5]
  have hkey : addPolicyKey cfg ptype l1 = addPolicyKey cfg ptype l2 := by
    unfold addPolicyKey
    rw [hrs]
  refine ⟨hrs, hkey, ?_, ?_⟩
  · intro st r1 r2
    rw [hkey]
    exact storeGet_put _ _ _
  · intro i hi
    interval_cases i <;> simp [slotVal, savePolicyLine]

/-- Witness for claim C9: `[" alice", "data1 "]` and `["alice", "data1"]`
collide on identity and key, and the second put wins. -/
theorem claim_C9_witness :
    ruleString (savePolicyLine "p" [" alice", "data1 "]) =
      ruleString (savePolicyLine "p" ["alice", "data1"]) ∧
    addPolicyKey ⟨"casbin", "", false, 0, 0⟩ "p" [" alice", "data1 "] =
      addPolicyKey ⟨"casbin", "", false, 0, 0⟩ "p" ["alice", "data1"] ∧
    storeGet (applyMutation
        (applyMutation []
          (.put (addPolicyKey ⟨"casbin", "", false, 0, 0⟩ "p" [" alice", "data1 "])
            (savePolicyLine "p" [" alice", "data1 "])))
        (.put (addPolicyKey ⟨"casbin", "", false, 0, 0⟩ "p" ["alice", "data1"])
          (savePolicyLine "p" ["alice", "data1"])))
      (addPolicyKey ⟨"casbin", "", false, 0, 0⟩ "p" [" alice", "data1 "]) =
      some (savePolicyLine "p" ["alice", "data1"]) := by
  have h := claim_C9_trim_invariant_identity ⟨"casbin", "", false, 0, 0⟩ "p"
    [" alice", "data1 "] ["alice", "data1"] (by decide)
  exact ⟨h.1, h.2.1, h.2.2.1 [] (savePolicyLine "p" [" alice", "data1 "])
    (savePolicyLine "p" ["alice", "data1"])⟩

/-- Claim C10: decode reads the first character of the type tag, which is
safe exactly when the tag is non-empty; the query LoadPolicy runs carries
the `ptype > ""` filter, and any record satisfying that filter decodes
without the panic. -/
theorem claim_C10_decode_safety :
    ∀ (cfg : Config) (r : CasbinRule),
      (newQuery cfg).filters = [("ptype >", "")] ∧
      (ptypeGtEmpty r = true →
        loadPolicyLine r = some (firstCharStr r.PType, r.PType, decodeTokens r)) := by
  intro cfg r
  refine ⟨rfl, ?_⟩
  intro h
  have hne := (ptypeGtEmpty_iff r).mp h
  simp [loadPolicyLine, hne]

/-- Witness for claim C10 at a concrete record passing the filter. -/
theorem claim_C10_witness :
    (newQuery ⟨"casbin", "", false, 0, 0⟩).filters = [("ptype >", "")] ∧
    loadPolicyLine (savePolicyLine "p" ["alice"]) =
      some (firstCharStr (savePolicyLine "p" ["alice"]).PType,
        (savePolicyLine "p" ["alice"]).PType, decodeTokens (savePolicyLine "p" ["alice"])) :=
  ⟨(claim_C10_decode_safety ⟨"casbin", "", false, 0, 0⟩ (savePolicyLine "p" ["alice"])).1,
   (claim_C10_decode_safety ⟨"casbin", "", false, 0, 0⟩ (savePolicyLine "p" ["alice"])).2
     (by decide)⟩

end CasbinDatastore
